import Mathlib

/-!
Verification of the knowledge-graph extraction pipeline in `sna.py`
(News_SocialNetworkAnalysis).

The development shallowly embeds the in-scope core of the program:

* a JSON value type (documents handled by `json.load` / `json.loads`);
* a directed graph with the `networkx.DiGraph` insertion semantics used by
  the program: `add_node` inserts a node keyed by name or overwrites its
  attribute, `add_edge` inserts both endpoints when absent (without a
  `node_type` attribute) and inserts or overwrites the edge keyed by the
  ordered pair `(source, target)`;
* the graph-materialization loops of `load_knowledge_graph` (lines 42-47)
  and `create_knowledge_graph` (lines 258-263), both at the JSON level
  (dictionary key lookups that can fail, as in Python) and at the typed
  level of schema-conformant ExtractionDocuments;
* the snapshot persistence of `create_knowledge_graph` (lines 249-252):
  the accumulated text is written verbatim, then parsed;
* the request preparation and the streaming/non-streaming branches of
  `message_r1` (lines 52-205), with the HTTP transport abstracted as a
  function argument;
* the exact `json_schema` constraint object of `message_r1` (lines 86-131),
  including the nesting of the entity `type` enum.

External effects (the filesystem, `json.loads`, the HTTP transport) are
modelled as explicit parameters: the filesystem as a partial map from path
to contents, the JSON parser as a function `String → Option Json`, the
transport as a function from request to response.
-/

/-- JSON values, as produced by Python's `json` module.  Floating point
numbers are modelled as integers; no claim below depends on numerics. -/
inductive Json where
  | null : Json
  | bool : Bool → Json
  | num : Int → Json
  | str : String → Json
  | arr : List Json → Json
  | obj : List (String × Json) → Json
deriving Repr

mutual

/-- Decidable equality of JSON values (the automatic derivation does not
handle the nesting through lists). -/
def Json.decEq : (a b : Json) → Decidable (a = b)
  | .null, .null => isTrue rfl
  | .null, .bool _ => isFalse nofun
  | .null, .num _ => isFalse nofun
  | .null, .str _ => isFalse nofun
  | .null, .arr _ => isFalse nofun
  | .null, .obj _ => isFalse nofun
  | .bool _, .null => isFalse nofun
  | .bool a, .bool b =>
    if h : a = b then isTrue (by rw [h]) else isFalse (by intro hh; cases hh; exact h rfl)
  | .bool _, .num _ => isFalse nofun
  | .bool _, .str _ => isFalse nofun
  | .bool _, .arr _ => isFalse nofun
  | .bool _, .obj _ => isFalse nofun
  | .num _, .null => isFalse nofun
  | .num _, .bool _ => isFalse nofun
  | .num a, .num b =>
    if h : a = b then isTrue (by rw [h]) else isFalse (by intro hh; cases hh; exact h rfl)
  | .num _, .str _ => isFalse nofun
  | .num _, .arr _ => isFalse nofun
  | .num _, .obj _ => isFalse nofun
  | .str _, .null => isFalse nofun
  | .str _, .bool _ => isFalse nofun
  | .str _, .num _ => isFalse nofun
  | .str a, .str b =>
    if h : a = b then isTrue (by rw [h]) else isFalse (by intro hh; cases hh; exact h rfl)
  | .str _, .arr _ => isFalse nofun
  | .str _, .obj _ => isFalse nofun
  | .arr _, .null => isFalse nofun
  | .arr _, .bool _ => isFalse nofun
  | .arr _, .num _ => isFalse nofun
  | .arr _, .str _ => isFalse nofun
  | .arr a, .arr b =>
    match Json.decEqList a b with
    | isTrue h => isTrue (by rw [h])
    | isFalse h => isFalse (by intro hh; cases hh; exact h rfl)
  | .arr _, .obj _ => isFalse nofun
  | .obj _, .null => isFalse nofun
  | .obj _, .bool _ => isFalse nofun
  | .obj _, .num _ => isFalse nofun
  | .obj _, .str _ => isFalse nofun
  | .obj _, .arr _ => isFalse nofun
  | .obj a, .obj b =>
    match Json.decEqObj a b with
    | isTrue h => isTrue (by rw [h])
    | isFalse h => isFalse (by intro hh; cases hh; exact h rfl)

def Json.decEqList : (a b : List Json) → Decidable (a = b)
  | [], [] => isTrue rfl
  | [], _ :: _ => isFalse nofun
  | _ :: _, [] => isFalse nofun
  | x :: xs, y :: ys =>
    match Json.decEq x y, Json.decEqList xs ys with
    | isTrue h₁, isTrue h₂ => isTrue (by rw [h₁, h₂])
    | isFalse h₁, _ => isFalse (by intro hh; injection hh; exact h₁ (by assumption))
    | _, isFalse h₂ => isFalse (by intro hh; injection hh; exact h₂ (by assumption))

def Json.decEqObj : (a b : List (String × Json)) → Decidable (a = b)
  | [], [] => isTrue rfl
  | [], _ :: _ => isFalse nofun
  | _ :: _, [] => isFalse nofun
  | (k, x) :: xs, (l, y) :: ys =>
    match String.decEq k l, Json.decEq x y, Json.decEqObj xs ys with
    | isTrue h₀, isTrue h₁, isTrue h₂ => isTrue (by rw [h₀, h₁, h₂])
    | isFalse h₀, _, _ =>
      isFalse (by intro hh; injection hh with hp _; injection hp; exact h₀ (by assumption))
    | _, isFalse h₁, _ =>
      isFalse (by intro hh; injection hh with hp _; injection hp; exact h₁ (by assumption))
    | _, _, isFalse h₂ => isFalse (by intro hh; injection hh; exact h₂ (by assumption))

end

instance : DecidableEq Json := Json.decEq

/-- First-match association-list lookup, the model of a Python dictionary
read `d[k]` (Python dictionaries have unique keys, so first match is the
match). -/
def lookupKey {κ ν : Type} [DecidableEq κ] : List (κ × ν) → κ → Option ν
  | [], _ => none
  | (k, v) :: rest, a => if k = a then some v else lookupKey rest a

/-- A directed graph in the style of `networkx.DiGraph` as used by the
program: each node is keyed by `κ` and carries an optional `node_type`
attribute (absent for nodes created implicitly by `add_edge`), each edge is
keyed by the ordered pair of its endpoints and carries a `relationship`
attribute.  Insertion order of the underlying lists mirrors networkx's
insertion-ordered dictionaries; node keys and edge keys are unique. -/
structure DiGraph (κ ε : Type) where
  nodes : List (κ × Option ε)
  edges : List ((κ × κ) × ε)
deriving DecidableEq, Repr

namespace DiGraph

variable {κ ε : Type} [DecidableEq κ]

/-- `nx.DiGraph()` -/
def empty : DiGraph κ ε := ⟨[], []⟩

/-- The node keys, in insertion order. -/
def nodeNames (G : DiGraph κ ε) : List κ := G.nodes.map Prod.fst

/-- The edge keys (ordered endpoint pairs), in insertion order. -/
def edgeKeys (G : DiGraph κ ε) : List (κ × κ) := G.edges.map Prod.fst

/-- `G.add_node(n, node_type=t)`: overwrites the attribute when the node
exists, otherwise appends a new node. -/
def add_node (G : DiGraph κ ε) (n : κ) (t : ε) : DiGraph κ ε :=
  if n ∈ G.nodeNames then
    { G with nodes := G.nodes.map (fun p => if p.1 = n then (n, some t) else p) }
  else
    { G with nodes := G.nodes ++ [(n, some t)] }

/-- The implicit node creation performed by `G.add_edge` for an endpoint:
a missing endpoint is appended with no `node_type` attribute, an existing
endpoint is left untouched. -/
def touchNode (G : DiGraph κ ε) (n : κ) : DiGraph κ ε :=
  if n ∈ G.nodeNames then G else { G with nodes := G.nodes ++ [(n, none)] }

/-- `G.add_edge(u, v, relationship=l)`: ensures both endpoints exist
(`u` first, then `v`), then overwrites the edge attribute when the ordered
pair already has an edge and appends a new edge otherwise. -/
def add_edge (G : DiGraph κ ε) (u v : κ) (l : ε) : DiGraph κ ε :=
  let G₁ := (G.touchNode u).touchNode v
  if (u, v) ∈ G₁.edgeKeys then
    { G₁ with edges := G₁.edges.map (fun e => if e.1 = (u, v) then ((u, v), l) else e) }
  else
    { G₁ with edges := G₁.edges ++ [((u, v), l)] }

end DiGraph

/-! ## The typed data model (spec §3)

Schema-conformant documents, as constrained by the `json_schema` the program
sends to the generation endpoint.  `build` below is the pair of insertion
loops shared verbatim by `load_knowledge_graph` and `create_knowledge_graph`,
specialized to such documents. -/

structure Entity where
  name : String
  type : String
  subtype : String
  description : String
deriving DecidableEq, Repr

structure Relationship where
  source : String
  target : String
  type : String
  description : String
deriving DecidableEq, Repr

structure ContextItem where
  aspect : String
  description : String
deriving DecidableEq, Repr

structure ExtractionDocument where
  entities : List Entity
  relationships : List Relationship
  context : List ContextItem
deriving DecidableEq, Repr

/-- The ordered endpoint pair of a relationship, the edge key used by
`add_edge`. -/
def Relationship.pair (r : Relationship) : String × String := (r.source, r.target)

/-- The node-insertion loop (`for entity in graph_data["entities"]:
G.add_node(entity["name"], node_type=entity["type"])`). -/
def addEntities (G : DiGraph String String) (es : List Entity) : DiGraph String String :=
  es.foldl (fun G e => G.add_node e.name e.type) G

/-- The edge-insertion loop (`for rel in graph_data["relationships"]:
G.add_edge(rel["source"], rel["target"], relationship=rel["description"])`). -/
def addRelationships (G : DiGraph String String) (rs : List Relationship) : DiGraph String String :=
  rs.foldl (fun G r => G.add_edge r.source r.target r.description) G

/-- Graph materialization: the two loops of `load_knowledge_graph`
(lines 42-47) / `create_knowledge_graph` (lines 258-263) run on an empty
`nx.DiGraph()`. -/
def build (D : ExtractionDocument) : DiGraph String String :=
  addRelationships (addEntities DiGraph.empty D.entities) D.relationships

/-- Both materialization sites return the graph together with the raw
parsed document (`return G, graph_data`); the document is not modified. -/
def build_result (D : ExtractionDocument) : DiGraph String String × ExtractionDocument :=
  (build D, D)

/-! ## The JSON-level materializer

`load_knowledge_graph` and the article path of `create_knowledge_graph` run
the insertion loops directly on the dictionary returned by `json.load` /
`json.loads`; each subscript can raise.  The exceptions the program can
raise there are modelled by `LoadError`. -/

/-- The failure conditions of the load/materialize path:
`fileNotFound` (`open` on an absent path), `parseError`
(`json.JSONDecodeError`), `keyError k` (subscripting a dictionary that
lacks key `k`), `typeError` (subscripting or iterating a value of the
wrong shape). -/
inductive LoadError where
  | fileNotFound : LoadError
  | parseError : LoadError
  | keyError : String → LoadError
  | typeError : LoadError
deriving DecidableEq, Repr

/-- `d[k]` on a JSON value: a key lookup on an object, `KeyError` when the
key is absent, `TypeError` when the value is not an object. -/
def Json.getKey : Json → String → Except LoadError Json
  | .obj kvs, k =>
    match lookupKey kvs k with
    | some v => .ok v
    | none => .error (.keyError k)
  | _, _ => .error .typeError

/-- `for x in v`: iteration over a JSON array; a non-array shape is
modelled as `TypeError`. -/
def Json.asArr : Json → Except LoadError (List Json)
  | .arr xs => .ok xs
  | _ => .error .typeError

/-- The node-insertion loop at the JSON level: each iteration evaluates
`entity["name"]` then `entity["type"]`, then calls `G.add_node`; a missing
key aborts the loop with its `KeyError`. -/
def add_nodes_json (G : DiGraph Json Json) : List Json → Except LoadError (DiGraph Json Json)
  | [] => .ok G
  | e :: rest =>
    match e.getKey "name" with
    | .error err => .error err
    | .ok name =>
      match e.getKey "type" with
      | .error err => .error err
      | .ok ty => add_nodes_json (G.add_node name ty) rest

/-- The edge-insertion loop at the JSON level: each iteration evaluates
`rel["source"]`, `rel["target"]`, `rel["description"]` (left to right),
then calls `G.add_edge`. -/
def add_edges_json (G : DiGraph Json Json) : List Json → Except LoadError (DiGraph Json Json)
  | [] => .ok G
  | r :: rest =>
    match r.getKey "source" with
    | .error err => .error err
    | .ok src =>
      match r.getKey "target" with
      | .error err => .error err
      | .ok tgt =>
        match r.getKey "description" with
        | .error err => .error err
        | .ok desc => add_edges_json (G.add_edge src tgt desc) rest

/-- The shared materialization body of `load_knowledge_graph` (lines 39-49)
and `create_knowledge_graph` (lines 255-263): an empty `nx.DiGraph()`, the
node loop over `graph_data["entities"]`, the edge loop over
`graph_data["relationships"]`, returning `(G, graph_data)`.  The
`"relationships"` subscript is only evaluated after the node loop
finishes, exactly as in the source. -/
def build_from_json (graph_data : Json) : Except LoadError (DiGraph Json Json × Json) :=
  match graph_data.getKey "entities" with
  | .error err => .error err
  | .ok v =>
    match v.asArr with
    | .error err => .error err
    | .ok ents =>
      match add_nodes_json DiGraph.empty ents with
      | .error err => .error err
      | .ok G =>
        match graph_data.getKey "relationships" with
        | .error err => .error err
        | .ok w =>
          match w.asArr with
          | .error err => .error err
          | .ok rels =>
            match add_edges_json G rels with
            | .error err => .error err
            | .ok G2 => .ok (G2, graph_data)

/-! ## Storage and the two materialization entry points

The filesystem is a partial map from path to file contents; `json.loads`
is an uninterpreted parameter `parse : String → Option Json` (`none`
models `json.JSONDecodeError`). -/

/-- The snapshot write of `create_knowledge_graph` (lines 249-250):
`open(path, "w")` followed by `f.write(text)` replaces the contents at
`path` with exactly `text`. -/
def persist (fs : String → Option String) (path text : String) : String → Option String :=
  fun p => if p = path then some text else fs p

/-- `load_knowledge_graph(filename)` (lines 35-49): open and read the file
(`FileNotFoundError` when absent), `json.load` it (`JSONDecodeError` when
not well-formed JSON), then run the insertion loops. -/
def load_knowledge_graph (fs : String → Option String) (parse : String → Option Json)
    (filename : String) : Except LoadError (DiGraph Json Json × Json) :=
  match fs filename with
  | none => .error .fileNotFound
  | some text =>
    match parse text with
    | none => .error .parseError
    | some graph_data => build_from_json graph_data

/-- The tail of the article path of `create_knowledge_graph`
(lines 249-263), starting from the fully accumulated response text: the
text is written verbatim to `network_dict.json` first, then
`json.loads` runs, then the insertion loops.  Returns the filesystem after
the write together with the materialization outcome. -/
def createFromText (fs : String → Option String) (parse : String → Option Json)
    (response_full : String) :
    (String → Option String) × Except LoadError (DiGraph Json Json × Json) :=
  let fs' := persist fs "network_dict.json" response_full
  match parse response_full with
  | none => (fs', .error .parseError)
  | some graph_data => (fs', build_from_json graph_data)

/-! ## Schema definition (`message_r1`, lines 56-131) -/

def VALID_ENTITY_TYPES : List String :=
  ["person", "organization", "policy", "issue", "impact", "location", "event"]

def ENTITY_SUBTYPES : List (String × List String) :=
  [("person", ["politician", "activist", "expert"]),
   ("organization", ["government", "NGO", "corporation"]),
   ("policy", ["domestic", "foreign", "economic"]),
   ("issue", []),
   ("impact", []),
   ("location", []),
   ("event", [])]

def RELATIONSHIP_TYPES : List String :=
  ["implements", "opposes", "supports", "criticizes",
   "collaborates_with", "impacts", "responds_to"]

/-- A JSON array of strings. -/
def strArr (xs : List String) : Json := .arr (xs.map .str)

/-- The `json_schema` constraint object (lines 86-131), field for field.
The entity `type` enum is `[VALID_ENTITY_TYPES]` in the source — a
single-element array whose element is the list of the seven values — while
the `subtype` enum is the flat comprehension
`[subtype for subtypes in ENTITY_SUBTYPES.values() for subtype in subtypes]`. -/
def json_schema : Json :=
  .obj [
    ("type", .str "object"),
    ("properties", .obj [
      ("entities", .obj [
        ("type", .str "array"),
        ("items", .obj [
          ("type", .str "object"),
          ("properties", .obj [
            ("name", .obj [("type", .str "string")]),
            ("type", .obj [
              ("type", .str "string"),
              ("enum", .arr [strArr VALID_ENTITY_TYPES])]),
            ("subtype", .obj [
              ("type", .str "string"),
              ("enum", strArr ((ENTITY_SUBTYPES.map Prod.snd).flatten))]),
            ("description", .obj [("type", .str "string")])]),
          ("required", strArr ["name", "type", "subtype", "description"])])]),
      ("relationships", .obj [
        ("type", .str "array"),
        ("items", .obj [
          ("type", .str "object"),
          ("properties", .obj [
            ("source", .obj [("type", .str "string")]),
            ("target", .obj [("type", .str "string")]),
            ("type", .obj [
              ("type", .str "string"),
              ("enum", strArr RELATIONSHIP_TYPES)]),
            ("description", .obj [("type", .str "string")])]),
          ("required", strArr ["source", "target", "type", "description"])])]),
      ("context", .obj [
        ("type", .str "array"),
        ("items", .obj [
          ("type", .str "object"),
          ("properties", .obj [
            ("aspect", .obj [("type", .str "string")]),
            ("description", .obj [("type", .str "string")])]),
          ("required", strArr ["aspect", "description"])])])]),
    ("required", strArr ["entities", "relationships", "context"])]

/-- Chained subscripting `j[k1][k2]...` through nested JSON objects. -/
def getPath (j : Json) : List String → Option Json
  | [] => some j
  | k :: rest =>
    match j with
    | .obj kvs =>
      match lookupKey kvs k with
      | some v => getPath v rest
      | none => none
    | _ => none

/-! ## Prompt builder (`message_r1` lines 78 and 144-185,
`create_knowledge_graph` lines 232-235) -/

/-- `subtypes_info` (line 78): one `- key: v1, v2, ...` line per entity
type whose subtype list is non-empty, joined by newlines. -/
def subtypes_info : String :=
  String.intercalate "\n"
    ((ENTITY_SUBTYPES.filter (fun kv => kv.2 ≠ [])).map
      (fun kv => "- " ++ kv.1 ++ ": " ++ String.intercalate ", " kv.2))

/-- Python's `str` rendering of a list of strings, used by the
`{RELATIONSHIP_TYPES}` interpolation on line 180 (`\x27` is the ASCII
single quote). -/
def pyListRepr (xs : List String) : String :=
  "[" ++ String.intercalate ", " (xs.map (fun s => "\x27" ++ s ++ "\x27")) ++ "]"

def systemPromptPartA : String :=
  "You are a Knowledge Graph creator specializing in news article analysis. Your task is to create a detailed knowledge graph that captures key entities, their relationships, and the broader context of the story.\n\n        Entity types MUST be one of: "

def systemPromptPartB : String :=
  "\n        All entity type values must be lowercase.\n\n        When analyzing the article:\n        1. Identify ALL key actors (people, organizations) and their roles\n        2. Include specific policies, issues, and their impacts\n        3. Capture responses and reactions from different parties\n        4. Note any justifications or reasoning given for actions\n        5. Include relevant locations and events\n\n        Relationships should:\n        - Be binary (one source to one target)\n        - Use clear, active verbs in present tense (e.g., \"implements\", \"opposes\", \"announces\", \"responds\", \"justifies\")\n        - Capture the nature of interactions between entities\n        - Include both direct actions and reactions\n        - Show cause-and-effect connections\n\n        Context should include:\n        - Economic implications\n        - Political dynamics\n        - International relations\n        - Historical context (if mentioned)\n        - Potential impacts or consequences\n\n        Follow this JSON structure strictly:\n        - entities: array of objects with name (string), type (string), subtype (string) and description (string)\n        - relationships: array of objects with source (string), target (string), type (string), and description (string)\n        - context: array of objects with aspect (string) and description (string)\n\n        Make sure to capture the full complexity of the story while maintaining clear, direct connections.\n        \n        Additional instructions:\n        1. Assign subtypes to entities where applicable. Valid subtypes are: \n            "

def systemPromptPartC : String :=
  "\n        2. Use only these relationship types: "

def systemPromptPartD : String :=
  "\n        3. Include temporal information for events and actions in ISO date format (YYYY-MM-DD) where possible.\n        4. Assign confidence scores (0-1) to entities and relationships based on how certain the information is.\n        5. Group entities or relationships into broader topics where relevant.\n        6. Flag potentially controversial or unverified claims.\n        "

/-- The f-string assigned to `messages[0]["content"]` (lines 144-185), with
its three interpolations `{', '.join(VALID_ENTITY_TYPES)}`,
`{subtypes_info}` and `{RELATIONSHIP_TYPES}` spelled out. -/
def systemPrompt : String :=
  systemPromptPartA ++ String.intercalate ", " VALID_ENTITY_TYPES ++
  systemPromptPartB ++ subtypes_info ++
  systemPromptPartC ++ pyListRepr RELATIONSHIP_TYPES ++
  systemPromptPartD

/-- One entry of the `messages` list: a Python dict
`{"role": ..., "content": ...}`. -/
structure Message where
  role : String
  content : String
deriving DecidableEq, Repr

/-- The conversation built by `create_knowledge_graph` (lines 232-235):
a placeholder system message and the fixed user instruction wrapping the
verbatim article text. -/
def mkMessages (article_text : String) : List Message :=
  [{ role := "system", content := "You are a Knowledge Graph creator..." },
   { role := "user",
     content := "Please create a knowledge graph from the provided article: \n"
       ++ article_text ++ "\n\n" }]

/-- The request body `data` (lines 133-141). -/
structure Request where
  model : String
  messages : List Message
  stream : Bool
  format : Json
  temperature : Nat
deriving DecidableEq, Repr

/-- The in-place mutation `messages[0]["content"] = f"""..."""` (line 144):
the first message keeps its role and receives the generated system
instruction; the rest of the list is untouched.  (On an empty list Python
would raise `IndexError`; callers always pass two messages.) -/
def setSystemContent : List Message → List Message
  | [] => []
  | m :: rest => { m with content := systemPrompt } :: rest

/-- The request-preparation phase of `message_r1` (lines 133-185): builds
`data` and performs the system-message mutation.  In the source the `data`
dictionary is built first but holds a reference to the `messages` list, so
the body eventually posted carries the mutated list; the model therefore
places the mutated list in the request.  Returns the request together with
the caller-visible mutated `messages` list. -/
def message_r1_prepare (messages : List Message) (stream : Bool) : Request × List Message :=
  let messages' := setSystemContent messages
  ({ model := "qwen2.5-coder:14b",
     messages := messages',
     stream := stream,
     format := json_schema,
     temperature := 0 },
   messages')

/-! ## Extraction client (`message_r1` lines 187-205) -/

/-- One parsed line of the newline-delimited streaming response
(`json.loads(line)`): `done` is the terminal flag, `content` is
`json_response.get("message", {}).get("content", "")`. -/
structure Chunk where
  done : Bool
  content : String
deriving DecidableEq, Repr

/-- The transport's response object (`requests.post`): `lines` is the
parsed `iter_lines()` view consumed in streaming mode, `body` the raw
payload available to a non-streaming caller. -/
structure HttpResponse where
  lines : List Chunk
  body : Json
deriving DecidableEq, Repr

/-- The value a generator body hands to `return` — delivered to Python
callers only inside `StopIteration.value`, invisible to a plain `for`
loop: in streaming mode the accumulated `full_response` text (line 202),
with `stream=False` the raw response object (line 205). -/
inductive GenReturn where
  | fullText : String → GenReturn
  | response : HttpResponse → GenReturn
deriving DecidableEq, Repr

/-- A Python generator object, described by the effect of iterating it to
exhaustion: the items it yields, and the `return` value it raises inside
`StopIteration` — which ordinary iteration discards. -/
structure Generator (α ρ : Type) where
  yielded : List α
  retval : ρ
deriving DecidableEq, Repr

/-- The `full_response` accumulator inside the streaming loop
(lines 191-197): only non-terminal lines contribute their
`message.content`. -/
def full_response (lines : List Chunk) : String :=
  lines.foldl (fun acc c => if c.done then acc else acc ++ c.content) ""

/-- The yield sequence of the streaming loop (lines 192-201): every line
with `done` false yields its `message.content` fragment, a line with
`done` true yields the whole statistics object.  The loop visits every
line. -/
def streamYield : List Chunk → List (String ⊕ Chunk)
  | [] => []
  | c :: rest =>
    (if c.done then Sum.inr c else Sum.inl c.content) :: streamYield rest

/-- `message_r1(messages, stream)` with the HTTP transport abstracted as
`post`.  The source body contains `yield` (lines 198 and 201), so Python
compiles the whole function as a generator function: the call itself runs
no body code and returns a generator object.  This definition gives the
semantics of iterating that generator to exhaustion, when the body runs
once: the request is prepared (mutating `messages`), the single POST is
issued, and then either every line yields a fragment or the terminal
object with `full_response` as the generator return value (streaming), or
nothing is yielded at all and `return response` (line 205) puts the raw
response object into the `StopIteration` value, where no caller iterating
the generator can see it.  The second component is the caller-visible
mutated `messages` list. -/
def message_r1 (post : Request → HttpResponse) (messages : List Message)
    (stream : Bool) : Generator (String ⊕ Chunk) GenReturn × List Message :=
  let pr := message_r1_prepare messages stream
  let response := post pr.1
  (if stream then
    { yielded := streamYield response.lines,
      retval := .fullText (full_response response.lines) }
  else
    { yielded := [], retval := .response response }, pr.2)

/-- The caller-side accumulation loop of `create_knowledge_graph`
(lines 239-246): string chunks are appended to `response_full`, the
non-string terminal object only triggers a completion message. -/
def accumulate (items : List (String ⊕ Chunk)) : String :=
  items.foldl (fun acc it => match it with | Sum.inl s => acc ++ s | Sum.inr _ => acc) ""

/-- The live article path of `create_knowledge_graph` (lines 229-263):
build the conversation, stream the extraction, accumulate the fragments,
then persist and materialize. -/
def create_knowledge_graph_live (fs : String → Option String)
    (parse : String → Option Json) (post : Request → HttpResponse)
    (article_text : String) :
    (String → Option String) × Except LoadError (DiGraph Json Json × Json) :=
  let pr := message_r1_prepare (mkMessages article_text) true
  createFromText fs parse (accumulate (streamYield (post pr.1).lines))

/-- The label of the last relationship in the list whose ordered endpoint
pair is `p`, if any: the attribute `add_edge` overwrite semantics leaves
behind. -/
def lastLabel (p : String × String) : List Relationship → Option String
  | [] => none
  | r :: rs =>
    match lastLabel p rs with
    | some d => some d
    | none => if r.pair = p then some r.description else none

/-! # Lemmas

Generic association-list facts (Python dictionaries and the node/edge
dictionaries of `networkx` are insertion-ordered maps with unique keys),
then facts about the graph operations. -/

theorem lookupKey_eq_none_iff {κ ν : Type} [DecidableEq κ] (l : List (κ × ν)) (a : κ) :
    lookupKey l a = none ↔ a ∉ l.map Prod.fst := by
  induction l with
  | nil => simp [lookupKey]
  | cons p rest ih =>
    obtain ⟨k, v⟩ := p
    by_cases h : k = a
    · subst h
      simp [lookupKey]
    · simp [lookupKey, h, ih, Ne.symm h]

theorem lookupKey_isSome_iff {κ ν : Type} [DecidableEq κ] (l : List (κ × ν)) (a : κ) :
    (lookupKey l a).isSome ↔ a ∈ l.map Prod.fst := by
  rw [Option.isSome_iff_ne_none, not_iff_comm, ← lookupKey_eq_none_iff (l := l) (a := a)]

theorem lookupKey_append {κ ν : Type} [DecidableEq κ] (l₁ l₂ : List (κ × ν)) (a : κ) :
    lookupKey (l₁ ++ l₂) a =
      match lookupKey l₁ a with
      | some v => some v
      | none => lookupKey l₂ a := by
  induction l₁ with
  | nil => simp [lookupKey]
  | cons p rest ih =>
    obtain ⟨k, v⟩ := p
    by_cases h : k = a <;> simp [lookupKey, h, ih]

theorem lookupKey_map_update_ne {κ ν : Type} [DecidableEq κ] (l : List (κ × ν))
    (k : κ) (x : ν) (a : κ) (h : a ≠ k) :
    lookupKey (l.map (fun e => if e.1 = k then (k, x) else e)) a = lookupKey l a := by
  induction l with
  | nil => rfl
  | cons p rest ih =>
    obtain ⟨k', v⟩ := p
    simp only [List.map_cons]
    by_cases h' : k' = k
    · rw [show (if ((k', v) : κ × ν).1 = k then (k, x) else (k', v)) = (k, x) from if_pos h']
      subst h'
      simp [lookupKey, Ne.symm h, ih]
    · rw [show (if ((k', v) : κ × ν).1 = k then (k, x) else (k', v)) = (k', v) from if_neg h']
      by_cases h'' : k' = a <;> simp [lookupKey, h'', ih]

theorem lookupKey_map_update_self {κ ν : Type} [DecidableEq κ] (l : List (κ × ν))
    (k : κ) (x : ν) (h : k ∈ l.map Prod.fst) :
    lookupKey (l.map (fun e => if e.1 = k then (k, x) else e)) k = some x := by
  induction l with
  | nil => simp at h
  | cons p rest ih =>
    obtain ⟨k', v⟩ := p
    simp only [List.map_cons]
    by_cases h' : k' = k
    · rw [show (if ((k', v) : κ × ν).1 = k then (k, x) else (k', v)) = (k, x) from if_pos h']
      simp [lookupKey]
    · rw [show (if ((k', v) : κ × ν).1 = k then (k, x) else (k', v)) = (k', v) from if_neg h']
      simp only [List.map_cons, List.mem_cons] at h
      rcases h with h | h
      · exact absurd h.symm h'
      · simp [lookupKey, h', ih h]

theorem keys_map_update {κ ν : Type} [DecidableEq κ] (l : List (κ × ν)) (k : κ) (x : ν) :
    (l.map (fun e => if e.1 = k then (k, x) else e)).map Prod.fst = l.map Prod.fst := by
  rw [List.map_map]
  apply List.map_congr_left
  intro e _
  by_cases h : e.1 = k <;> simp [h]

theorem filter_key_length_one {κ ν : Type} [DecidableEq κ] (l : List (κ × ν)) (a : κ) (v : ν)
    (hnd : (l.map Prod.fst).Nodup) (h : lookupKey l a = some v) :
    (l.filter (fun e => e.1 = a)).length = 1 := by
  induction l with
  | nil => simp [lookupKey] at h
  | cons p rest ih =>
    obtain ⟨k, w⟩ := p
    simp only [List.map_cons, List.nodup_cons] at hnd
    by_cases h' : k = a
    · subst h'
      have : rest.filter (fun e => e.1 = k) = [] := by
        rw [List.filter_eq_nil_iff]
        intro e he
        simp only [decide_eq_true_eq]
        intro hek
        exact hnd.1 (hek ▸ List.mem_map_of_mem Prod.fst he)
      simp [List.filter, this]
    · simp only [lookupKey, if_neg h'] at h
      simpa [List.filter, h'] using ih hnd.2 h

namespace DiGraph

variable {κ ε : Type} [DecidableEq κ]

theorem edges_touchNode (G : DiGraph κ ε) (n : κ) : (G.touchNode n).edges = G.edges := by
  unfold touchNode
  split <;> rfl

theorem touchNode_of_mem (G : DiGraph κ ε) (n : κ) (h : n ∈ G.nodeNames) :
    G.touchNode n = G := by
  unfold touchNode
  rw [if_pos h]

theorem nodes_touchNode_of_not_mem (G : DiGraph κ ε) (n : κ) (h : n ∉ G.nodeNames) :
    (G.touchNode n).nodes = G.nodes ++ [(n, none)] := by
  unfold touchNode
  rw [if_neg h]

theorem mem_nodeNames_touchNode_iff (G : DiGraph κ ε) (n m : κ) :
    m ∈ (G.touchNode n).nodeNames ↔ m ∈ G.nodeNames ∨ m = n := by
  unfold touchNode
  split
  · rename_i h
    constructor
    · exact Or.inl
    · rintro (hm | rfl)
      · exact hm
      · exact h
  · simp [nodeNames]

theorem length_nodes_touchNode (G : DiGraph κ ε) (n : κ) :
    (G.touchNode n).nodes.length = if n ∈ G.nodeNames then G.nodes.length else G.nodes.length + 1 := by
  unfold touchNode
  split <;> simp

theorem nodes_touchNode_congr (G H : DiGraph κ ε) (n : κ) (h : G.nodes = H.nodes) :
    (G.touchNode n).nodes = (H.touchNode n).nodes := by
  unfold touchNode nodeNames
  rw [h]
  split <;> simp [h]

theorem lookupKey_nodes_touchNode_of_isSome (G : DiGraph κ ε) (n m : κ)
    (h : (lookupKey G.nodes m).isSome) :
    lookupKey (G.touchNode n).nodes m = lookupKey G.nodes m := by
  unfold touchNode
  split
  · rfl
  · rename_i hn
    rw [lookupKey_append]
    obtain ⟨a, ha⟩ := Option.isSome_iff_exists.mp h
    rw [ha]

theorem lookupKey_nodes_touchNode_self (G : DiGraph κ ε) (n : κ) (h : n ∉ G.nodeNames) :
    lookupKey (G.touchNode n).nodes n = some none := by
  rw [nodes_touchNode_of_not_mem G n h, lookupKey_append]
  have : lookupKey G.nodes n = none := (lookupKey_eq_none_iff _ _).mpr h
  rw [this]
  simp [lookupKey]

theorem nodes_add_edge (G : DiGraph κ ε) (u v : κ) (l : ε) :
    (G.add_edge u v l).nodes = ((G.touchNode u).touchNode v).nodes := by
  by_cases h : (u, v) ∈ ((G.touchNode u).touchNode v).edgeKeys <;>
    simp [add_edge, h]

theorem edges_add_node (G : DiGraph κ ε) (n : κ) (t : ε) : (G.add_node n t).edges = G.edges := by
  unfold add_node
  split <;> rfl

theorem nodes_add_node_of_not_mem (G : DiGraph κ ε) (n : κ) (t : ε) (h : n ∉ G.nodeNames) :
    (G.add_node n t).nodes = G.nodes ++ [(n, some t)] := by
  unfold add_node
  rw [if_neg h]

theorem nodeNames_add_node (G : DiGraph κ ε) (n : κ) (t : ε) :
    (G.add_node n t).nodeNames =
      if n ∈ G.nodeNames then G.nodeNames else G.nodeNames ++ [n] := by
  unfold add_node
  split
  · simp only [nodeNames]
    exact keys_map_update G.nodes n (some t)
  · simp [nodeNames]

theorem lookupKey_nodes_add_node_ne (G : DiGraph κ ε) (n : κ) (t : ε) (m : κ) (h : m ≠ n) :
    lookupKey (G.add_node n t).nodes m = lookupKey G.nodes m := by
  unfold add_node
  split
  · exact lookupKey_map_update_ne G.nodes n (some t) m h
  · rw [lookupKey_append]
    cases hm : lookupKey G.nodes m
    · simp [lookupKey, Ne.symm h]
    · rfl

end DiGraph

namespace DiGraph

variable {κ ε : Type} [DecidableEq κ]

theorem edgeKeys_touchNode (G : DiGraph κ ε) (n : κ) :
    (G.touchNode n).edgeKeys = G.edgeKeys := by
  unfold edgeKeys
  rw [edges_touchNode]

theorem edges_add_edge (G : DiGraph κ ε) (u v : κ) (l : ε) :
    (G.add_edge u v l).edges =
      if (u, v) ∈ G.edgeKeys then
        G.edges.map (fun e => if e.1 = (u, v) then ((u, v), l) else e)
      else G.edges ++ [((u, v), l)] := by
  have he : ((G.touchNode u).touchNode v).edges = G.edges := by
    rw [edges_touchNode, edges_touchNode]
  have hk : ((G.touchNode u).touchNode v).edgeKeys = G.edgeKeys := by
    rw [edgeKeys_touchNode, edgeKeys_touchNode]
  by_cases h : (u, v) ∈ G.edgeKeys <;> simp [add_edge, hk, h, he]

theorem edgeKeys_add_edge (G : DiGraph κ ε) (u v : κ) (l : ε) :
    (G.add_edge u v l).edgeKeys =
      if (u, v) ∈ G.edgeKeys then G.edgeKeys else G.edgeKeys ++ [(u, v)] := by
  by_cases h : (u, v) ∈ G.edgeKeys
  · rw [if_pos h]
    show (G.add_edge u v l).edges.map Prod.fst = G.edgeKeys
    rw [edges_add_edge, if_pos h]
    exact keys_map_update G.edges (u, v) l
  · rw [if_neg h]
    show (G.add_edge u v l).edges.map Prod.fst = G.edgeKeys ++ [(u, v)]
    rw [edges_add_edge, if_neg h]
    simp [edgeKeys]

theorem length_edges_add_edge (G : DiGraph κ ε) (u v : κ) (l : ε) :
    (G.add_edge u v l).edges.length =
      if (u, v) ∈ G.edgeKeys then G.edges.length else G.edges.length + 1 := by
  rw [edges_add_edge]
  by_cases h : (u, v) ∈ G.edgeKeys <;> simp [h]

theorem lookupKey_edges_add_edge (G : DiGraph κ ε) (u v : κ) (l : ε) (p : κ × κ) :
    lookupKey (G.add_edge u v l).edges p =
      if p = (u, v) then some l else lookupKey G.edges p := by
  rw [edges_add_edge]
  by_cases h : (u, v) ∈ G.edgeKeys
  · rw [if_pos h]
    by_cases hp : p = (u, v)
    · subst hp
      rw [if_pos rfl]
      exact lookupKey_map_update_self G.edges (u, v) l h
    · rw [if_neg hp]
      exact lookupKey_map_update_ne G.edges (u, v) l p hp
  · rw [if_neg h, lookupKey_append]
    cases hlk : lookupKey G.edges p with
    | none =>
      by_cases hpe : p = (u, v)
      · subst hpe
        simp [lookupKey]
      · simp [lookupKey, hpe, Ne.symm hpe, hlk]
    | some w =>
      have hmem : p ∈ G.edgeKeys :=
        (lookupKey_isSome_iff G.edges p).mp (by rw [hlk]; rfl)
      have hp : p ≠ (u, v) := by
        rintro rfl
        exact h hmem
      simp [hp, hlk]

theorem nodes_add_edge_of_mem (G : DiGraph κ ε) (u v : κ) (l : ε)
    (hu : u ∈ G.nodeNames) (hv : v ∈ G.nodeNames) :
    (G.add_edge u v l).nodes = G.nodes := by
  rw [nodes_add_edge, touchNode_of_mem G u hu, touchNode_of_mem G v hv]

theorem length_nodes_le_add_edge (G : DiGraph κ ε) (u v : κ) (l : ε) :
    G.nodes.length ≤ (G.add_edge u v l).nodes.length := by
  rw [nodes_add_edge]
  have h1 : G.nodes.length ≤ (G.touchNode u).nodes.length := by
    rw [length_nodes_touchNode]
    split <;> omega
  have h2 : (G.touchNode u).nodes.length ≤ ((G.touchNode u).touchNode v).nodes.length := by
    rw [length_nodes_touchNode (G.touchNode u) v]
    split <;> omega
  omega

theorem length_nodes_lt_add_edge (G : DiGraph κ ε) (u v : κ) (l : ε)
    (h : u ∉ G.nodeNames ∨ v ∉ G.nodeNames) :
    G.nodes.length < (G.add_edge u v l).nodes.length := by
  rw [nodes_add_edge]
  by_cases hu : u ∈ G.nodeNames
  · have hv : v ∉ G.nodeNames := by tauto
    rw [touchNode_of_mem G u hu, length_nodes_touchNode, if_neg hv]
    omega
  · have h1 : (G.touchNode u).nodes.length = G.nodes.length + 1 := by
      rw [length_nodes_touchNode, if_neg hu]
    have h2 : (G.touchNode u).nodes.length ≤ ((G.touchNode u).touchNode v).nodes.length := by
      rw [length_nodes_touchNode (G.touchNode u) v]
      split <;> omega
    omega

theorem mem_nodeNames_add_edge_iff (G : DiGraph κ ε) (u v : κ) (l : ε) (m : κ) :
    m ∈ (G.add_edge u v l).nodeNames ↔ m ∈ G.nodeNames ∨ m = u ∨ m = v := by
  have hnames : (G.add_edge u v l).nodeNames = ((G.touchNode u).touchNode v).nodeNames := by
    unfold nodeNames
    rw [nodes_add_edge]
  rw [hnames, mem_nodeNames_touchNode_iff, mem_nodeNames_touchNode_iff]
  tauto

theorem nodes_add_edge_congr (G H : DiGraph κ ε) (u v : κ) (l l' : ε) (h : G.nodes = H.nodes) :
    (G.add_edge u v l).nodes = (H.add_edge u v l').nodes := by
  rw [nodes_add_edge, nodes_add_edge]
  exact nodes_touchNode_congr _ _ v (nodes_touchNode_congr _ _ u h)

theorem lookupKey_nodes_add_edge_of_isSome (G : DiGraph κ ε) (u v : κ) (l : ε) (m : κ)
    (h : (lookupKey G.nodes m).isSome) :
    lookupKey (G.add_edge u v l).nodes m = lookupKey G.nodes m := by
  rw [nodes_add_edge]
  have h1 := lookupKey_nodes_touchNode_of_isSome G u m h
  have h2 := lookupKey_nodes_touchNode_of_isSome (G.touchNode u) v m (by rw [h1]; exact h)
  rw [h2, h1]

theorem lookupKey_nodes_add_edge_left (G : DiGraph κ ε) (u v : κ) (l : ε)
    (h : u ∉ G.nodeNames) :
    lookupKey (G.add_edge u v l).nodes u = some none := by
  rw [nodes_add_edge]
  have h1 : lookupKey (G.touchNode u).nodes u = some none :=
    lookupKey_nodes_touchNode_self G u h
  rw [lookupKey_nodes_touchNode_of_isSome (G.touchNode u) v u (by rw [h1]; rfl), h1]

theorem lookupKey_nodes_add_edge_right (G : DiGraph κ ε) (u v : κ) (l : ε)
    (h : v ∉ G.nodeNames) (hvu : v ≠ u) :
    lookupKey (G.add_edge u v l).nodes v = some none := by
  rw [nodes_add_edge]
  have hv : v ∉ (G.touchNode u).nodeNames := by
    rw [mem_nodeNames_touchNode_iff]
    tauto
  exact lookupKey_nodes_touchNode_self (G.touchNode u) v hv

theorem mem_edgeKeys_add_edge_self (G : DiGraph κ ε) (u v : κ) (l : ε) :
    (u, v) ∈ (G.add_edge u v l).edgeKeys := by
  rw [edgeKeys_add_edge]
  by_cases h : (u, v) ∈ G.edgeKeys <;> simp [h]

theorem mem_edgeKeys_add_edge_of_mem (G : DiGraph κ ε) (u v : κ) (l : ε) (p : κ × κ)
    (h : p ∈ G.edgeKeys) : p ∈ (G.add_edge u v l).edgeKeys := by
  rw [edgeKeys_add_edge]
  by_cases h' : (u, v) ∈ G.edgeKeys <;> simp [h', h]

theorem nodup_edgeKeys_add_edge (G : DiGraph κ ε) (u v : κ) (l : ε)
    (h : G.edgeKeys.Nodup) : (G.add_edge u v l).edgeKeys.Nodup := by
  rw [edgeKeys_add_edge]
  by_cases h' : (u, v) ∈ G.edgeKeys
  · simpa [h']
  · rw [if_neg h']
    simp [List.nodup_append, h, h']

end DiGraph

theorem addEntities_nil (G : DiGraph String String) : addEntities G [] = G := rfl

theorem addEntities_cons (G : DiGraph String String) (e : Entity) (es : List Entity) :
    addEntities G (e :: es) = addEntities (G.add_node e.name e.type) es := rfl

theorem addRelationships_nil (G : DiGraph String String) : addRelationships G [] = G := rfl

theorem addRelationships_cons (G : DiGraph String String) (r : Relationship)
    (rs : List Relationship) :
    addRelationships G (r :: rs) =
      addRelationships (G.add_edge r.source r.target r.description) rs := rfl

theorem edges_addEntities (G : DiGraph String String) (es : List Entity) :
    (addEntities G es).edges = G.edges := by
  induction es generalizing G with
  | nil => rfl
  | cons e es ih =>
    rw [addEntities_cons, ih, DiGraph.edges_add_node]

theorem nodes_addEntities (G : DiGraph String String) (es : List Entity)
    (hnd : (es.map Entity.name).Nodup) (hfresh : ∀ e ∈ es, e.name ∉ G.nodeNames) :
    (addEntities G es).nodes = G.nodes ++ es.map (fun e => (e.name, some e.type)) := by
  induction es generalizing G with
  | nil => simp [addEntities]
  | cons e es ih =>
    simp only [List.map_cons, List.nodup_cons] at hnd
    have hne : e.name ∉ G.nodeNames := hfresh e (List.mem_cons_self e es)
    have hnodes : (G.add_node e.name e.type).nodes = G.nodes ++ [(e.name, some e.type)] :=
      DiGraph.nodes_add_node_of_not_mem G e.name e.type hne
    have hnames : (G.add_node e.name e.type).nodeNames = G.nodeNames ++ [e.name] := by
      rw [DiGraph.nodeNames_add_node, if_neg hne]
    have hfresh' : ∀ e' ∈ es, e'.name ∉ (G.add_node e.name e.type).nodeNames := by
      intro e' he'
      rw [hnames]
      simp only [List.mem_append, List.mem_singleton, not_or]
      refine ⟨hfresh e' (List.mem_cons_of_mem e he'), ?_⟩
      intro hh
      exact hnd.1 (hh ▸ List.mem_map_of_mem Entity.name he')
    rw [addEntities_cons, ih _ hnd.2 hfresh', hnodes]
    simp

theorem length_nodes_le_addRelationships (G : DiGraph String String) (rs : List Relationship) :
    G.nodes.length ≤ (addRelationships G rs).nodes.length := by
  induction rs generalizing G with
  | nil => exact Nat.le_refl _
  | cons r rs ih =>
    rw [addRelationships_cons]
    exact Nat.le_trans (DiGraph.length_nodes_le_add_edge G r.source r.target r.description)
      (ih (G.add_edge r.source r.target r.description))

theorem length_nodes_addRelationships_eq_iff (G : DiGraph String String)
    (rs : List Relationship) :
    (addRelationships G rs).nodes.length = G.nodes.length ↔
      ∀ r ∈ rs, r.source ∈ G.nodeNames ∧ r.target ∈ G.nodeNames := by
  induction rs generalizing G with
  | nil => simp [addRelationships]
  | cons r rs ih =>
    rw [addRelationships_cons]
    by_cases hm : r.source ∈ G.nodeNames ∧ r.target ∈ G.nodeNames
    · have hn : (G.add_edge r.source r.target r.description).nodes = G.nodes :=
        DiGraph.nodes_add_edge_of_mem G _ _ _ hm.1 hm.2
      have hnames : (G.add_edge r.source r.target r.description).nodeNames = G.nodeNames := by
        unfold DiGraph.nodeNames
        rw [hn]
      have hih := ih (G.add_edge r.source r.target r.description)
      rw [hn, hnames] at hih
      rw [hih]
      constructor
      · intro h r' hr'
        rcases List.mem_cons.mp hr' with rfl | hr'
        · exact hm
        · exact h r' hr'
      · intro h r' hr'
        exact h r' (List.mem_cons_of_mem r hr')
    · have hlt : G.nodes.length <
          (G.add_edge r.source r.target r.description).nodes.length :=
        DiGraph.length_nodes_lt_add_edge G _ _ _ (by tauto)
      have hle := length_nodes_le_addRelationships
        (G.add_edge r.source r.target r.description) rs
      constructor
      · intro h
        omega
      · intro h
        exact absurd (h r (List.mem_cons_self r rs)) hm

theorem length_edges_le_addRelationships (G : DiGraph String String) (rs : List Relationship) :
    (addRelationships G rs).edges.length ≤ G.edges.length + rs.length := by
  induction rs generalizing G with
  | nil => simp [addRelationships]
  | cons r rs ih =>
    rw [addRelationships_cons]
    have h1 := ih (G.add_edge r.source r.target r.description)
    have h2 : (G.add_edge r.source r.target r.description).edges.length ≤
        G.edges.length + 1 := by
      rw [DiGraph.length_edges_add_edge]
      split <;> omega
    simp only [List.length_cons]
    omega

theorem length_edges_addRelationships_eq_iff (G : DiGraph String String)
    (rs : List Relationship) :
    (addRelationships G rs).edges.length = G.edges.length + rs.length ↔
      ((rs.map Relationship.pair).Nodup ∧ ∀ r ∈ rs, r.pair ∉ G.edgeKeys) := by
  induction rs generalizing G with
  | nil => simp [addRelationships]
  | cons r rs ih =>
    rw [addRelationships_cons]
    by_cases hp : r.pair ∈ G.edgeKeys
    · have hlen : (G.add_edge r.source r.target r.description).edges.length =
          G.edges.length := by
        rw [DiGraph.length_edges_add_edge,
          if_pos (show (r.source, r.target) ∈ G.edgeKeys from hp)]
      have hle := length_edges_le_addRelationships
        (G.add_edge r.source r.target r.description) rs
      rw [hlen] at hle
      constructor
      · intro h
        simp only [List.length_cons] at h
        omega
      · rintro ⟨-, hall⟩
        exact absurd hp (hall r (List.mem_cons_self r rs))
    · have hlen : (G.add_edge r.source r.target r.description).edges.length =
          G.edges.length + 1 := by
        rw [DiGraph.length_edges_add_edge,
          if_neg (show (r.source, r.target) ∉ G.edgeKeys from hp)]
      have hkeys : (G.add_edge r.source r.target r.description).edgeKeys =
          G.edgeKeys ++ [r.pair] := by
        rw [DiGraph.edgeKeys_add_edge,
          if_neg (show (r.source, r.target) ∉ G.edgeKeys from hp)]
        rfl
      have hih := ih (G.add_edge r.source r.target r.description)
      rw [hlen] at hih
      have harith : G.edges.length + (r :: rs).length = G.edges.length + 1 + rs.length := by
        simp only [List.length_cons]
        omega
      rw [harith, hih]
      constructor
      · rintro ⟨hnd, hall⟩
        have hnotin : r.pair ∉ rs.map Relationship.pair := by
          intro hmem
          obtain ⟨r', hr', hpe⟩ := List.mem_map.mp hmem
          have hmm := hall r' hr'
          rw [hkeys, hpe] at hmm
          exact hmm (by simp)
        refine ⟨by simp [List.nodup_cons, hnotin, hnd], ?_⟩
        intro r' hr'
        rcases List.mem_cons.mp hr' with rfl | hr'
        · exact hp
        · have hmm := hall r' hr'
          rw [hkeys] at hmm
          simp only [List.mem_append, List.mem_singleton, not_or] at hmm
          exact hmm.1
      · rintro ⟨hnd, hall⟩
        simp only [List.map_cons, List.nodup_cons] at hnd
        refine ⟨hnd.2, ?_⟩
        intro r' hr'
        rw [hkeys]
        simp only [List.mem_append, List.mem_singleton, not_or]
        refine ⟨hall r' (List.mem_cons_of_mem r hr'), ?_⟩
        intro hpe
        exact hnd.1 (hpe ▸ List.mem_map_of_mem Relationship.pair hr')

theorem nodup_edgeKeys_addRelationships (G : DiGraph String String) (rs : List Relationship)
    (h : G.edgeKeys.Nodup) : (addRelationships G rs).edgeKeys.Nodup := by
  induction rs generalizing G with
  | nil => exact h
  | cons r rs ih =>
    rw [addRelationships_cons]
    exact ih _ (DiGraph.nodup_edgeKeys_add_edge G _ _ _ h)

theorem mem_edgeKeys_addRelationships_of_mem (G : DiGraph String String)
    (rs : List Relationship) (p : String × String) (h : p ∈ G.edgeKeys) :
    p ∈ (addRelationships G rs).edgeKeys := by
  induction rs generalizing G with
  | nil => exact h
  | cons r rs ih =>
    rw [addRelationships_cons]
    exact ih _ (DiGraph.mem_edgeKeys_add_edge_of_mem G _ _ _ p h)

theorem mem_edgeKeys_addRelationships (G : DiGraph String String) (rs : List Relationship)
    (r : Relationship) (h : r ∈ rs) : r.pair ∈ (addRelationships G rs).edgeKeys := by
  induction rs generalizing G with
  | nil => simp at h
  | cons r' rs ih =>
    rw [addRelationships_cons]
    rcases List.mem_cons.mp h with rfl | h
    · exact mem_edgeKeys_addRelationships_of_mem _ rs r.pair
        (DiGraph.mem_edgeKeys_add_edge_self G _ _ _)
    · exact ih _ h

theorem lookupKey_nodes_addRelationships_of_isSome (G : DiGraph String String)
    (rs : List Relationship) (m : String) (h : (lookupKey G.nodes m).isSome) :
    lookupKey (addRelationships G rs).nodes m = lookupKey G.nodes m := by
  induction rs generalizing G with
  | nil => rfl
  | cons r rs ih =>
    rw [addRelationships_cons]
    have h1 := DiGraph.lookupKey_nodes_add_edge_of_isSome G r.source r.target r.description m h
    rw [ih _ (by rw [h1]; exact h), h1]

theorem lookupKey_edges_addRelationships (G : DiGraph String String)
    (rs : List Relationship) (p : String × String) :
    lookupKey (addRelationships G rs).edges p =
      match lastLabel p rs with
      | some d => some d
      | none => lookupKey G.edges p := by
  induction rs generalizing G with
  | nil => rfl
  | cons r rs ih =>
    rw [addRelationships_cons, ih (G.add_edge r.source r.target r.description),
      DiGraph.lookupKey_edges_add_edge]
    cases h : lastLabel p rs with
    | some d => simp [lastLabel, h]
    | none =>
      simp only [lastLabel, h]
      by_cases hpe : p = (r.source, r.target)
      · have hrp : r.pair = p := hpe.symm
        simp [hpe, hrp]
      · have hrp : ¬ (r.pair = p) := fun hh => hpe hh.symm
        simp [hpe, hrp]

theorem lookupKey_nodes_addRelationships_implicit (G : DiGraph String String)
    (rs : List Relationship) (n : String) (hG : n ∉ G.nodeNames)
    (h : ∃ r ∈ rs, r.source = n ∨ r.target = n) :
    lookupKey (addRelationships G rs).nodes n = some none := by
  induction rs generalizing G with
  | nil =>
    obtain ⟨r, hr, -⟩ := h
    simp at hr
  | cons r rs ih =>
    rw [addRelationships_cons]
    by_cases hend : r.source = n ∨ r.target = n
    · have hsome : lookupKey (G.add_edge r.source r.target r.description).nodes n =
          some none := by
        by_cases hsn : r.source = n
        · subst hsn
          exact DiGraph.lookupKey_nodes_add_edge_left G _ _ _ hG
        · have htn : r.target = n := by tauto
          subst htn
          exact DiGraph.lookupKey_nodes_add_edge_right G _ _ _ hG
            (fun hh => hsn hh.symm)
      rw [lookupKey_nodes_addRelationships_of_isSome _ rs n (by rw [hsome]; rfl), hsome]
    · have hG' : n ∉ (G.add_edge r.source r.target r.description).nodeNames := by
        rw [DiGraph.mem_nodeNames_add_edge_iff]
        push_neg
        exact ⟨hG, fun hh => hend (Or.inl hh.symm), fun hh => hend (Or.inr hh.symm)⟩
      have h' : ∃ r' ∈ rs, r'.source = n ∨ r'.target = n := by
        obtain ⟨r', hr', hor⟩ := h
        rcases List.mem_cons.mp hr' with rfl | hr'
        · exact absurd hor hend
        · exact ⟨r', hr', hor⟩
      exact ih _ hG' h'

theorem lastLabel_eq (p : String × String) (rs : List Relationship) :
    lastLabel p rs =
      ((rs.filter (fun r => r.pair = p)).getLast?).map Relationship.description := by
  induction rs with
  | nil => rfl
  | cons r rs ih =>
    cases hfl : rs.filter (fun r => r.pair = p) with
    | nil =>
      have hnone : lastLabel p rs = none := by
        rw [ih, hfl]
        rfl
      have hLHS : lastLabel p (r :: rs) =
          if r.pair = p then some r.description else none := by
        simp only [lastLabel]
        rw [hnone]
      rw [hLHS]
      by_cases hr : r.pair = p
      · rw [List.filter_cons_of_pos (by simpa using hr), hfl, if_pos hr]
        rfl
      · rw [List.filter_cons_of_neg (by simpa using hr), hfl, if_neg hr]
        rfl
    | cons x xs =>
      have h1 : ((x :: xs).getLast?).isSome := List.getLast?_isSome.mpr (by simp)
      obtain ⟨g, hg⟩ := Option.isSome_iff_exists.mp h1
      have hlast : lastLabel p rs = some g.description := by
        rw [ih, hfl, hg]
        rfl
      have hLHS : lastLabel p (r :: rs) = some g.description := by
        simp only [lastLabel]
        rw [hlast]
      rw [hLHS]
      by_cases hr : r.pair = p
      · rw [List.filter_cons_of_pos (by simpa using hr), hfl, List.getLast?_cons_cons, hg]
        rfl
      · rw [List.filter_cons_of_neg (by simpa using hr), hfl, hg]
        rfl

theorem lastLabel_isSome_of_mem (p : String × String) (rs : List Relationship)
    (r : Relationship) (hr : r ∈ rs) (hp : r.pair = p) :
    (lastLabel p rs).isSome := by
  induction rs with
  | nil => simp at hr
  | cons r' rs ih =>
    rcases List.mem_cons.mp hr with rfl | hr
    · simp only [lastLabel]
      cases h : lastLabel p rs with
      | some d => rfl
      | none => simp [hp]
    · simp only [lastLabel]
      cases h : lastLabel p rs with
      | some d => rfl
      | none =>
        have := ih hr
        rw [h] at this
        simp at this

theorem mem_nodeNames_addEntities (G : DiGraph String String) (es : List Entity) (n : String) :
    n ∈ (addEntities G es).nodeNames ↔ n ∈ G.nodeNames ∨ n ∈ es.map Entity.name := by
  induction es generalizing G with
  | nil => simp [addEntities]
  | cons e es ih =>
    rw [addEntities_cons, ih]
    have hstep : n ∈ (G.add_node e.name e.type).nodeNames ↔
        n ∈ G.nodeNames ∨ n = e.name := by
      rw [DiGraph.nodeNames_add_node]
      split
      · rename_i hmem
        constructor
        · exact Or.inl
        · rintro (h | rfl)
          · exact h
          · exact hmem
      · simp
    rw [hstep]
    simp only [List.map_cons, List.mem_cons]
    tauto

theorem edgeKeys_addEntities (G : DiGraph String String) (es : List Entity) :
    (addEntities G es).edgeKeys = G.edgeKeys := by
  unfold DiGraph.edgeKeys
  rw [edges_addEntities]

theorem join_cons (s : String) (l : List String) :
    String.join (s :: l) = s ++ String.join l := by
  apply String.ext
  simp [String.join_eq]

/-- Claim C1: for every valid ExtractionDocument `D` (entity names unique, per the
data model), the insertion loops produce a graph with at least
`D.entities.length` nodes — exactly that many precisely when every
relationship endpoint is a declared entity name — and exactly
`D.relationships.length` edges when all (source, target) ordered pairs are
distinct, strictly fewer when some pair repeats; the empty document builds
the empty graph without error. -/
theorem build_node_edge_counts (D : ExtractionDocument)
    (hval : (D.entities.map Entity.name).Nodup) :
    D.entities.length ≤ (build D).nodes.length
    ∧ ((build D).nodes.length = D.entities.length ↔
        ∀ r ∈ D.relationships, r.source ∈ D.entities.map Entity.name ∧
          r.target ∈ D.entities.map Entity.name)
    ∧ ((D.relationships.map Relationship.pair).Nodup →
        (build D).edges.length = D.relationships.length)
    ∧ (¬ (D.relationships.map Relationship.pair).Nodup →
        (build D).edges.length < D.relationships.length)
    ∧ build ⟨[], [], []⟩ = DiGraph.empty := by
  have hfresh : ∀ e ∈ D.entities, e.name ∉ (DiGraph.empty : DiGraph String String).nodeNames := by
    intro e _
    simp [DiGraph.empty, DiGraph.nodeNames]
  have h0 : (addEntities DiGraph.empty D.entities).nodes =
      D.entities.map (fun e => (e.name, some e.type)) := by
    rw [nodes_addEntities DiGraph.empty D.entities hval hfresh]
    rfl
  have hlen0 : (addEntities DiGraph.empty D.entities).nodes.length = D.entities.length := by
    rw [h0, List.length_map]
  have hnames0 : (addEntities DiGraph.empty D.entities).nodeNames =
      D.entities.map Entity.name := by
    unfold DiGraph.nodeNames
    rw [h0, List.map_map]
    rfl
  have hedges0 : (addEntities DiGraph.empty D.entities).edges = [] := by
    rw [edges_addEntities]
    rfl
  have hkeys0 : (addEntities DiGraph.empty D.entities).edgeKeys = [] := by
    rw [edgeKeys_addEntities]
    rfl
  refine ⟨?_, ?_, ?_, ?_, rfl⟩
  · have := length_nodes_le_addRelationships
      (addEntities DiGraph.empty D.entities) D.relationships
    rw [hlen0] at this
    exact this
  · have := length_nodes_addRelationships_eq_iff
      (addEntities DiGraph.empty D.entities) D.relationships
    rw [hlen0, hnames0] at this
    exact this
  · intro hnd
    have := length_edges_addRelationships_eq_iff
      (addEntities DiGraph.empty D.entities) D.relationships
    rw [hedges0] at this
    simp only [List.length_nil, Nat.zero_add] at this
    exact this.mpr ⟨hnd, by intro r _; rw [hkeys0]; exact List.not_mem_nil r.pair⟩
  · intro hnd
    have hiff := length_edges_addRelationships_eq_iff
      (addEntities DiGraph.empty D.entities) D.relationships
    rw [hedges0] at hiff
    simp only [List.length_nil, Nat.zero_add] at hiff
    have hle := length_edges_le_addRelationships
      (addEntities DiGraph.empty D.entities) D.relationships
    rw [hedges0] at hle
    simp only [List.length_nil, Nat.zero_add] at hle
    have hne : (build D).edges.length ≠ D.relationships.length := by
      intro heq
      exact hnd (hiff.mp heq).1
    exact Nat.lt_of_le_of_ne hle hne

/-- Witness for `build_node_edge_counts`: a concrete two-entity,
one-relationship document with distinct names and a declared endpoint
pair. -/
theorem build_node_edge_counts_witness :
    ((ExtractionDocument.mk
        [⟨"a", "person", "politician", "d1"⟩, ⟨"b", "event", "", "d2"⟩]
        [⟨"a", "b", "supports", "lbl"⟩] []).entities.map Entity.name).Nodup
    ∧ (build (ExtractionDocument.mk
        [⟨"a", "person", "politician", "d1"⟩, ⟨"b", "event", "", "d2"⟩]
        [⟨"a", "b", "supports", "lbl"⟩] [])).nodes.length = 2
    ∧ (build (ExtractionDocument.mk
        [⟨"a", "person", "politician", "d1"⟩, ⟨"b", "event", "", "d2"⟩]
        [⟨"a", "b", "supports", "lbl"⟩] [])).edges.length = 1 := by
  have h := build_node_edge_counts
    (ExtractionDocument.mk
      [⟨"a", "person", "politician", "d1"⟩, ⟨"b", "event", "", "d2"⟩]
      [⟨"a", "b", "supports", "lbl"⟩] []) (by decide)
  exact ⟨by decide, h.2.1.mpr (by decide), h.2.2.1 (by decide)⟩

/-- Claim C5: when several relationships share the same (source, target) ordered
pair, the built graph holds exactly one edge for that pair, its label is the
description of the last such relationship in the list, and the raw document
returned alongside the graph still carries all of them. -/
theorem build_duplicate_pair_overwrites (D : ExtractionDocument) (p : String × String)
    (h : ∃ r ∈ D.relationships, r.pair = p) :
    ((build D).edges.filter (fun e => e.1 = p)).length = 1
    ∧ lookupKey (build D).edges p =
        ((D.relationships.filter (fun r => r.pair = p)).getLast?).map
          Relationship.description
    ∧ (build_result D).2.relationships = D.relationships := by
  obtain ⟨r, hr, hp⟩ := h
  obtain ⟨d, hd⟩ := Option.isSome_iff_exists.mp
    (lastLabel_isSome_of_mem p D.relationships r hr hp)
  have hlookup : lookupKey (build D).edges p = some d := by
    unfold build
    rw [lookupKey_edges_addRelationships, hd]
  have hkeys0 : (addEntities DiGraph.empty D.entities).edgeKeys = [] := by
    rw [edgeKeys_addEntities]
    rfl
  have hnodup : ((build D).edges.map Prod.fst).Nodup := by
    have : (build D).edgeKeys.Nodup := by
      unfold build
      exact nodup_edgeKeys_addRelationships _ _ (by rw [hkeys0]; exact List.nodup_nil)
    exact this
  refine ⟨filter_key_length_one (build D).edges p d hnodup hlookup, ?_, rfl⟩
  rw [hlookup, ← lastLabel_eq, hd]

/-- Witness for `build_duplicate_pair_overwrites`: two relationships with
the same (source, target) pair; the surviving label is the second
description. -/
theorem build_duplicate_pair_overwrites_witness :
    (∃ r ∈ (ExtractionDocument.mk [⟨"a", "person", "", "d"⟩]
        [⟨"a", "b", "supports", "first"⟩, ⟨"a", "b", "opposes", "second"⟩]
        []).relationships, r.pair = ("a", "b"))
    ∧ lookupKey (build (ExtractionDocument.mk [⟨"a", "person", "", "d"⟩]
        [⟨"a", "b", "supports", "first"⟩, ⟨"a", "b", "opposes", "second"⟩]
        [])).edges ("a", "b") = some "second"
    ∧ ((build (ExtractionDocument.mk [⟨"a", "person", "", "d"⟩]
        [⟨"a", "b", "supports", "first"⟩, ⟨"a", "b", "opposes", "second"⟩]
        [])).edges.filter (fun e => e.1 = ("a", "b"))).length = 1 := by
  have h := build_duplicate_pair_overwrites
    (ExtractionDocument.mk [⟨"a", "person", "", "d"⟩]
      [⟨"a", "b", "supports", "first"⟩, ⟨"a", "b", "opposes", "second"⟩] [])
    ("a", "b") ⟨⟨"a", "b", "supports", "first"⟩, by decide, by decide⟩
  refine ⟨⟨⟨"a", "b", "supports", "first"⟩, by decide, by decide⟩, ?_, h.1⟩
  rw [h.2.1]
  decide

/-- Claim C6: a relationship whose source or target is not a declared entity name
still materializes a directed edge, and the implicitly created endpoint node
carries no `node_type` attribute. -/
theorem build_undeclared_endpoint (D : ExtractionDocument) (r : Relationship)
    (hr : r ∈ D.relationships) :
    (r.source, r.target) ∈ (build D).edgeKeys
    ∧ (r.source ∉ D.entities.map Entity.name →
        lookupKey (build D).nodes r.source = some none)
    ∧ (r.target ∉ D.entities.map Entity.name →
        lookupKey (build D).nodes r.target = some none) := by
  have hmemedge : r.pair ∈ (build D).edgeKeys :=
    mem_edgeKeys_addRelationships _ D.relationships r hr
  have hG0 : ∀ n, n ∉ D.entities.map Entity.name →
      n ∉ (addEntities DiGraph.empty D.entities).nodeNames := by
    intro n hn hmem
    rcases (mem_nodeNames_addEntities DiGraph.empty D.entities n).mp hmem with h | h
    · simp [DiGraph.empty, DiGraph.nodeNames] at h
    · exact hn h
  refine ⟨hmemedge, ?_, ?_⟩
  · intro hn
    exact lookupKey_nodes_addRelationships_implicit _ D.relationships r.source
      (hG0 r.source hn) ⟨r, hr, Or.inl rfl⟩
  · intro hn
    exact lookupKey_nodes_addRelationships_implicit _ D.relationships r.target
      (hG0 r.target hn) ⟨r, hr, Or.inr rfl⟩

/-- Witness for `build_undeclared_endpoint`: the target `"ghost"` is not a
declared entity; the edge exists and the implicit node has no type
attribute. -/
theorem build_undeclared_endpoint_witness :
    (⟨"a", "ghost", "impacts", "lbl"⟩ : Relationship) ∈
      (ExtractionDocument.mk [⟨"a", "person", "", "d"⟩]
        [⟨"a", "ghost", "impacts", "lbl"⟩] []).relationships
    ∧ ("a", "ghost") ∈ (build (ExtractionDocument.mk [⟨"a", "person", "", "d"⟩]
        [⟨"a", "ghost", "impacts", "lbl"⟩] [])).edgeKeys
    ∧ lookupKey (build (ExtractionDocument.mk [⟨"a", "person", "", "d"⟩]
        [⟨"a", "ghost", "impacts", "lbl"⟩] [])).nodes "ghost" = some none := by
  have h := build_undeclared_endpoint
    (ExtractionDocument.mk [⟨"a", "person", "", "d"⟩]
      [⟨"a", "ghost", "impacts", "lbl"⟩] [])
    ⟨"a", "ghost", "impacts", "lbl"⟩ (by decide)
  exact ⟨by decide, h.1, h.2.2 (by decide)⟩

/-- Claim C2: persisting a syntactically valid serialized ExtractionDocument
verbatim and loading it back materializes exactly the result of building
directly from the parsed text — the same nodes with the same type
attributes and the same edges with the same labels. -/
theorem load_persist_roundtrip (fs : String → Option String)
    (parse : String → Option Json) (path raw : String) (j : Json)
    (h : parse raw = some j) :
    load_knowledge_graph (persist fs path raw) parse path = build_from_json j := by
  have hfile : persist fs path raw path = some raw := by
    unfold persist
    rw [if_pos rfl]
  simp only [load_knowledge_graph, hfile, h]

/-- Witness for `load_persist_roundtrip`: a parser recognizing one concrete
empty document; persist-then-load returns the empty graph with the raw
document. -/
theorem load_persist_roundtrip_witness :
    (fun s => if s = "doc" then
        some (Json.obj [("entities", Json.arr []), ("relationships", Json.arr [])])
      else none) "doc" =
      some (Json.obj [("entities", Json.arr []), ("relationships", Json.arr [])])
    ∧ load_knowledge_graph
        (persist (fun _ => none) "network_dict.json" "doc")
        (fun s => if s = "doc" then
          some (Json.obj [("entities", Json.arr []), ("relationships", Json.arr [])])
        else none)
        "network_dict.json" =
      Except.ok (DiGraph.empty,
        Json.obj [("entities", Json.arr []), ("relationships", Json.arr [])]) := by
  have h := load_persist_roundtrip (fun _ => none)
    (fun s => if s = "doc" then
      some (Json.obj [("entities", Json.arr []), ("relationships", Json.arr [])])
    else none)
    "network_dict.json" "doc"
    (Json.obj [("entities", Json.arr []), ("relationships", Json.arr [])])
    (by decide)
  refine ⟨by decide, ?_⟩
  rw [h]
  rfl

/-- Claim C7: on the live path the accumulated text is written to the snapshot
file before any parsing; when the text is not valid JSON the write has
already succeeded and the parse error surfaces afterwards, at
materialization time. -/
theorem persist_precedes_parse (fs : String → Option String)
    (parse : String → Option Json) (raw : String) (h : parse raw = none) :
    (createFromText fs parse raw).1 "network_dict.json" = some raw
    ∧ (createFromText fs parse raw).2 = .error .parseError := by
  constructor
  · simp only [createFromText, h, persist]
    simp
  · simp only [createFromText, h]

/-- Witness for `persist_precedes_parse`: a parser rejecting everything;
the malformed text is on disk and the outcome is the parse error. -/
theorem persist_precedes_parse_witness :
    (fun _ => (none : Option Json)) "not json" = none
    ∧ (createFromText (fun _ => none) (fun _ => none) "not json").1
        "network_dict.json" = some "not json"
    ∧ (createFromText (fun _ => none) (fun _ => none) "not json").2 =
        .error .parseError := by
  have h := persist_precedes_parse (fun _ => none) (fun _ => none) "not json" rfl
  exact ⟨rfl, h.1, h.2⟩

/-- Claim C8: `load` fails when the file is absent or its contents are not
well-formed JSON; when the contents are well-formed JSON but the top-level
`entities` or `relationships` key is missing, the failure is a key-lookup
failure (`KeyError`), not a parse failure. -/
theorem load_failure_modes (fs : String → Option String)
    (parse : String → Option Json) (path : String) :
    (fs path = none → load_knowledge_graph fs parse path = .error .fileNotFound)
    ∧ (∀ text, fs path = some text → parse text = none →
        load_knowledge_graph fs parse path = .error .parseError)
    ∧ (∀ text kvs, fs path = some text → parse text = some (Json.obj kvs) →
        lookupKey kvs "entities" = none →
        load_knowledge_graph fs parse path = .error (.keyError "entities"))
    ∧ (∀ text kvs es G, fs path = some text → parse text = some (Json.obj kvs) →
        lookupKey kvs "entities" = some (Json.arr es) →
        add_nodes_json DiGraph.empty es = .ok G →
        lookupKey kvs "relationships" = none →
        load_knowledge_graph fs parse path = .error (.keyError "relationships")) := by
  refine ⟨?_, ?_, ?_, ?_⟩
  · intro h
    simp only [load_knowledge_graph, h]
  · intro text h1 h2
    simp only [load_knowledge_graph, h1, h2]
  · intro text kvs h1 h2 h3
    have hk : (Json.obj kvs).getKey "entities" = .error (.keyError "entities") := by
      simp only [Json.getKey, h3]
    simp only [load_knowledge_graph, h1, h2, build_from_json, hk]
  · intro text kvs es G h1 h2 h3 h4 h5
    have hk : (Json.obj kvs).getKey "entities" = .ok (Json.arr es) := by
      simp only [Json.getKey, h3]
    have hk2 : (Json.obj kvs).getKey "relationships" =
        .error (.keyError "relationships") := by
      simp only [Json.getKey, h5]
    simp only [load_knowledge_graph, h1, h2, build_from_json, hk, Json.asArr, h4, hk2]

/-- Witness for `load_failure_modes`: an absent file, an unparseable file,
a JSON object with no keys, and a JSON object with only `entities`. -/
theorem load_failure_modes_witness :
    load_knowledge_graph (fun _ => none) (fun _ => none) "p" = .error .fileNotFound
    ∧ load_knowledge_graph (fun _ => some "x") (fun _ => none) "p" = .error .parseError
    ∧ load_knowledge_graph (fun _ => some "x") (fun _ => some (Json.obj [])) "p" =
        .error (.keyError "entities")
    ∧ load_knowledge_graph (fun _ => some "x")
        (fun _ => some (Json.obj [("entities", Json.arr [])])) "p" =
        .error (.keyError "relationships") := by
  refine ⟨?_, ?_, ?_, ?_⟩
  · exact (load_failure_modes (fun _ => none) (fun _ => none) "p").1 rfl
  · exact (load_failure_modes (fun _ => some "x") (fun _ => none) "p").2.1 "x" rfl rfl
  · exact (load_failure_modes (fun _ => some "x") (fun _ => some (Json.obj [])) "p").2.2.1
      "x" [] rfl rfl (by decide)
  · exact (load_failure_modes (fun _ => some "x")
      (fun _ => some (Json.obj [("entities", Json.arr [])])) "p").2.2.2
      "x" [("entities", Json.arr [])] [] DiGraph.empty rfl rfl (by decide) rfl (by decide)

theorem streamYield_append (xs ys : List Chunk) :
    streamYield (xs ++ ys) = streamYield xs ++ streamYield ys := by
  induction xs with
  | nil => rfl
  | cons c rest ih => simp [streamYield, ih]

theorem streamYield_of_not_done (body : List Chunk)
    (hbody : ∀ c ∈ body, c.done = false) :
    streamYield body = body.map (fun c => Sum.inl c.content) := by
  induction body with
  | nil => rfl
  | cons c rest ih =>
    simp only [streamYield, List.map_cons]
    rw [hbody c (List.mem_cons_self c rest)]
    simp [ih (fun c h => hbody c (List.mem_cons_of_mem _ h))]

theorem foldl_accumulate_fragments (body : List Chunk) (a : String) :
    List.foldl (fun acc it => match it with | Sum.inl s => acc ++ s | Sum.inr _ => acc) a
      (body.map (fun c => (Sum.inl c.content : String ⊕ Chunk)))
    = a ++ String.join (body.map Chunk.content) := by
  induction body generalizing a with
  | nil =>
    simp only [List.map_nil, List.foldl_nil]
    rw [show String.join [] = "" from rfl, String.append_empty]
  | cons c body ih =>
    simp only [List.map_cons, List.foldl_cons]
    rw [ih (a ++ c.content), join_cons, String.append_assoc]

/-- Claim C3: with a well-formed stream (every line before the last carries
`done=false`, the last carries `done=true`), every yielded item is a text
fragment except the final one, which is the terminal statistics object; the
caller's buffer is the in-order concatenation of the fragments, excluding
the terminal object; and that concatenation is exactly the string the live
path hands to persistence and materialization. -/
theorem streaming_yield_contract (body : List Chunk) (t : Chunk)
    (hbody : ∀ c ∈ body, c.done = false) (ht : t.done = true) :
    streamYield (body ++ [t]) =
      body.map (fun c => Sum.inl c.content) ++ [Sum.inr t]
    ∧ accumulate (streamYield (body ++ [t])) = String.join (body.map Chunk.content)
    ∧ ∀ fs parse post article,
        (post (message_r1_prepare (mkMessages article) true).1).lines = body ++ [t] →
        create_knowledge_graph_live fs parse post article =
          createFromText fs parse (String.join (body.map Chunk.content)) := by
  have h1 : streamYield (body ++ [t]) =
      body.map (fun c => Sum.inl c.content) ++ [Sum.inr t] := by
    rw [streamYield_append, streamYield_of_not_done body hbody]
    simp [streamYield, ht]
  have h2 : accumulate (streamYield (body ++ [t])) =
      String.join (body.map Chunk.content) := by
    rw [h1]
    unfold accumulate
    rw [List.foldl_append, foldl_accumulate_fragments body ""]
    simp only [List.foldl_cons, List.foldl_nil]
    rw [String.empty_append]
  refine ⟨h1, h2, ?_⟩
  intro fs parse post article hlines
  show createFromText fs parse
      (accumulate (streamYield (post (message_r1_prepare (mkMessages article) true).1).lines))
    = createFromText fs parse (String.join (body.map Chunk.content))
  rw [hlines, h2]

/-- Witness for `streaming_yield_contract`: two fragments then a terminal
chunk; the buffer is their concatenation. -/
theorem streaming_yield_contract_witness :
    (∀ c ∈ [Chunk.mk false "ab", Chunk.mk false "cd"], c.done = false)
    ∧ (Chunk.mk true "").done = true
    ∧ accumulate (streamYield
        ([Chunk.mk false "ab", Chunk.mk false "cd"] ++ [Chunk.mk true ""])) = "abcd" := by
  have h := streaming_yield_contract [Chunk.mk false "ab", Chunk.mk false "cd"]
    (Chunk.mk true "") (by decide) rfl
  refine ⟨by decide, rfl, ?_⟩
  rw [h.2.1]
  decide

/-- Claim C4 (code bug): `message_r1` contains `yield`, so Python compiles
it as a generator function; calling it with `stream=False` returns a
generator whose iteration yields no items — the POST is deferred to the
first iteration and `return response` (line 205) buries the raw response
object in the `StopIteration` value, so it is never handed to the caller.
The claimed contract (one synchronous call whose raw response object is
returned), which the comment on line 204 also states, does not hold of
the code. -/
theorem nonstreaming_response_lost (post : Request → HttpResponse)
    (messages : List Message) :
    (message_r1 post messages false).1.yielded = []
    ∧ (message_r1 post messages false).1.retval =
        GenReturn.response (post (message_r1_prepare messages false).1) := ⟨rfl, rfl⟩

/-- Claim C9: the structural constraint object requires all four entity fields,
all four relationship fields (type drawn from the seven relationship
types), both context fields, and all three top-level arrays; within it the
entity `type` enum is nested one level too deep (a single-element array
containing the seven-value list) while the `subtype` enum is the flat
union of all subtypes across all entity types. -/
theorem json_schema_shape :
    getPath json_schema ["properties", "entities", "items", "required"] =
      some (strArr ["name", "type", "subtype", "description"])
    ∧ getPath json_schema ["properties", "relationships", "items", "required"] =
      some (strArr ["source", "target", "type", "description"])
    ∧ getPath json_schema
        ["properties", "relationships", "items", "properties", "type", "enum"] =
      some (strArr ["implements", "opposes", "supports", "criticizes",
        "collaborates_with", "impacts", "responds_to"])
    ∧ getPath json_schema ["properties", "context", "items", "required"] =
      some (strArr ["aspect", "description"])
    ∧ getPath json_schema ["required"] =
      some (strArr ["entities", "relationships", "context"])
    ∧ getPath json_schema
        ["properties", "entities", "items", "properties", "type", "enum"] =
      some (Json.arr [strArr ["person", "organization", "policy", "issue",
        "impact", "location", "event"]])
    ∧ getPath json_schema
        ["properties", "entities", "items", "properties", "subtype", "enum"] =
      some (strArr ["politician", "activist", "expert", "government", "NGO",
        "corporation", "domestic", "foreign", "economic"]) := by
  exact ⟨rfl, rfl, rfl, rfl, rfl, rfl, rfl⟩

/-- Claim C10: `message_r1` overwrites the content of the first (system) message
of the caller-supplied two-message conversation with the generated system
instruction — which embeds the entity-type, subtype and relationship-type
vocabularies — leaves the second (user) message untouched, and fills every
other request parameter (model, stream flag, format constraint, zero
temperature) from fixed values. -/
theorem message_r1_mutates_conversation (m0 m1 : Message) (stream : Bool)
    (article : String) :
    (message_r1_prepare [m0, m1] stream).2 = [{ m0 with content := systemPrompt }, m1]
    ∧ (message_r1_prepare [m0, m1] stream).1.messages =
        [{ m0 with content := systemPrompt }, m1]
    ∧ (message_r1_prepare [m0, m1] stream).1.model = "qwen2.5-coder:14b"
    ∧ (message_r1_prepare [m0, m1] stream).1.stream = stream
    ∧ (message_r1_prepare [m0, m1] stream).1.format = json_schema
    ∧ (message_r1_prepare [m0, m1] stream).1.temperature = 0
    ∧ (∃ a b, systemPrompt = a ++ String.intercalate ", " VALID_ENTITY_TYPES ++ b)
    ∧ (∃ a b, systemPrompt = a ++ subtypes_info ++ b)
    ∧ (∃ a b, systemPrompt = a ++ pyListRepr RELATIONSHIP_TYPES ++ b)
    ∧ (message_r1_prepare (mkMessages article) stream).2 =
        [{ role := "system", content := systemPrompt },
         { role := "user",
           content := "Please create a knowledge graph from the provided article: \n"
             ++ article ++ "\n\n" }] := by
  refine ⟨rfl, rfl, rfl, rfl, rfl, rfl, ?_, ?_, ?_, rfl⟩
  · refine ⟨systemPromptPartA,
      systemPromptPartB ++ subtypes_info ++ systemPromptPartC
        ++ pyListRepr RELATIONSHIP_TYPES ++ systemPromptPartD, ?_⟩
    apply String.ext
    simp [systemPrompt, String.data_append, List.append_assoc]
  · refine ⟨systemPromptPartA ++ String.intercalate ", " VALID_ENTITY_TYPES
        ++ systemPromptPartB,
      systemPromptPartC ++ pyListRepr RELATIONSHIP_TYPES ++ systemPromptPartD, ?_⟩
    apply String.ext
    simp [systemPrompt, String.data_append, List.append_assoc]
  · refine ⟨systemPromptPartA ++ String.intercalate ", " VALID_ENTITY_TYPES
        ++ systemPromptPartB ++ subtypes_info ++ systemPromptPartC,
      systemPromptPartD, ?_⟩
    apply String.ext
    simp [systemPrompt, String.data_append, List.append_assoc]
